import Mathlib

/-!
Shallow embedding of `compiletex.py`: a LaTeX build-pipeline driver.
Pure fragments (exit-code classification, plan assembly, filename
derivation) become Lean functions; effectful fragments (process
lifecycle, hooks, symlink creation, pipeline execution) become
functions producing explicit traces over a state passed by value.
-/

/-- Actions `_deal_timeout` may send to the spawned process, in order. -/
inductive ProcAction
  | terminate
  | kill
deriving DecidableEq

/-- Python truthiness of the value returned by `process.poll()`:
`None` (process still running) is falsy, an integer status is truthy
iff it is nonzero. -/
def python_truthy : Option Int → Bool
  | none => false
  | some c => c != 0

/-- `CompilationUnit._deal_timeout` (compiletex.py lines 40-48): log,
`process.terminate()`, then `if process.poll(): process.kill()`.
`poll_after_terminate` is what `process.poll()` returns right after the
terminate: `none` while the process is still running, `some c` once it
has exited with status `c`. The result is the ordered list of signals
sent. -/
def deal_timeout (poll_after_terminate : Option Int) : List ProcAction :=
  [ProcAction.terminate] ++
    (if python_truthy poll_after_terminate then [ProcAction.kill] else [])

/-- The `return_codes` policy of a `CompilationUnit`: the `ok` and
`warn` exit-code lists. -/
structure ReturnCodes where
  ok : List Int
  warn : List Int
deriving DecidableEq

/-- A single quote character, used by the log-message format string. -/
def squote : String := String.singleton (Char.ofNat 39)

/-- Python `str.replace` of a literal backslash-n with a newline, as in
`str(out).replace(r'\n', '\n')`. -/
def unescape_chars : List Char → List Char
  | [] => []
  | '\\' :: 'n' :: rest => '\n' :: unescape_chars rest
  | c :: rest => c :: unescape_chars rest

def unescape (s : String) : String := String.mk (unescape_chars s.data)

/-- The message built by `_deal_return_code` (compiletex.py lines
51-52): the format string applied to the joined command, the return
code, and the unescaped stdout and stderr. -/
def format_message (command : List String) (returncode : Int) (out err : String) : String :=
  "Process " ++ squote ++ String.intercalate " " command ++ squote ++
    " exited with status " ++ squote ++ toString returncode ++ squote ++
    ", stdout:" ++ squote ++ unescape out ++ squote ++
    ", stderr: " ++ squote ++ unescape err ++ squote

/-- `CompilationUnit._deal_return_code` (compiletex.py lines 50-57):
raise `RuntimeError(message)` when the return code is in neither `ok`
nor `warn`; otherwise succeed, logging the message exactly when the
code is in `warn`. Success carries `some message` when the message was
logged and `none` when nothing was logged. -/
def deal_return_code (command : List String) (return_codes : ReturnCodes)
    (returncode : Int) (out err : String) : Except String (Option String) :=
  if returncode ∉ return_codes.ok ∧ returncode ∉ return_codes.warn then
    Except.error (format_message command returncode out err)
  else if returncode ∈ return_codes.warn then
    Except.ok (some (format_message command returncode out err))
  else
    Except.ok none

/-- Observable events of one `CompilationUnit.__call__`: the pre-hook,
the process spawn, and the post-hook. -/
inductive Event
  | pre
  | spawn
  | post
deriving DecidableEq

/-- `CompilationUnit.__call__` (compiletex.py lines 70-75): `precall()`;
`_run_process()` which spawns the process, collects `(out, err)` and
runs `_deal_return_code` (raising on failure); then `postcall()`.
Returns the ordered event trace together with the outcome. -/
def unit_call (command : List String) (return_codes : ReturnCodes)
    (returncode : Int) (out err : String) :
    List Event × Except String (String × String) :=
  match deal_return_code command return_codes returncode out err with
  | Except.error e => ([Event.pre, Event.spawn], Except.error e)
  | Except.ok _ => ([Event.pre, Event.spawn, Event.post], Except.ok (out, err))

/-- One element added to a `CompilationProcess`: an identifier (its
insertion position) together with what invoking it does. -/
instance {ε α : Type} [DecidableEq ε] [DecidableEq α] : DecidableEq (Except ε α) :=
  fun a b =>
  match a, b with
  | Except.ok x, Except.ok y =>
    if h : x = y then isTrue (by rw [h])
    else isFalse (fun hc => h (by injection hc))
  | Except.error x, Except.error y =>
    if h : x = y then isTrue (by rw [h])
    else isFalse (fun hc => h (by injection hc))
  | Except.ok _, Except.error _ => isFalse (fun hc => Except.noConfusion hc)
  | Except.error _, Except.ok _ => isFalse (fun hc => Except.noConfusion hc)

structure Step where
  id : Nat
  result : Except String Unit
deriving DecidableEq

/-- `CompilationProcess.compile` (compiletex.py lines 88-90):
`for unit in self.elements: unit()`. Returns the identifiers of the
steps actually invoked, in order, and the outcome: a raise from a step
propagates at once and ends the loop. -/
def compileTrace : List Step → List Nat × Except String Unit
  | [] => ([], Except.ok ())
  | s :: rest =>
    match s.result with
    | Except.error e => ([s.id], Except.error e)
    | Except.ok _ =>
      let p := compileTrace rest
      (s.id :: p.1, p.2)

/-- A `Step` whose invocation behaves as one `CompilationUnit` call. -/
def unit_step (i : Nat) (command : List String) (return_codes : ReturnCodes)
    (returncode : Int) (out err : String) : Step :=
  ⟨i, ((unit_call command return_codes returncode out err).2).map (fun _ => ())⟩

/-- The kinds of steps `Project._generate_compilation` adds. -/
inductive StepKind
  | mkBuildDir
  | compileMain
  | symlinks
  | bib
deriving DecidableEq

/-- `Project.reference_compilation_units` (compiletex.py lines 146-160)
returns the symlink step followed by the bibliography unit. -/
def reference_units_kinds : List StepKind := [StepKind.symlinks, StepKind.bib]

/-- `Project._generate_compilation` (compiletex.py lines 162-180):
`if self.builddir:` add the build-directory step; always add one main
compile; if bibliography files were found, add the reference units and
two further main compiles. `builddir` is a string, so the Python test
is nonemptiness. -/
def generate_compilation (builddir : String) (has_bibtex : Bool) : List StepKind :=
  (if builddir ≠ "" then [StepKind.mkBuildDir] else []) ++
    [StepKind.compileMain] ++
    (if has_bibtex then
      reference_units_kinds ++ [StepKind.compileMain, StepKind.compileMain]
    else [])

/-- The policy the bibliography `CompilationUnit` is constructed with
(compiletex.py line 160): `return_codes = ok [0], warn [2]`. -/
def bib_return_codes : ReturnCodes := { ok := [0], warn := [2] }

/-- `Project.reference_auxiliary_filename` (compiletex.py lines
136-137): `self.main_texfile()[:-3] + 'aux'`, over the characters of
the main tex filename. -/
def reference_auxiliary_filename (main_texfile : List Char) : List Char :=
  main_texfile.take (main_texfile.length - 3) ++ ['a', 'u', 'x']

/-- Modelled from the spec: everything before the last dot of a
filename (the filename unchanged when it has no dot). -/
def drop_extension (name : List Char) : List Char :=
  if '.' ∈ name then
    (((name.reverse.dropWhile (fun c => c ≠ '.')).drop 1)).reverse
  else name

/-- Modelled from the spec: the auxiliary filename obtained by
replacing the main document's file extension with `aux`, keeping the
same base name. -/
def replace_extension_with_aux (name : List Char) : List Char :=
  drop_extension name ++ ['.', 'a', 'u', 'x']

/-- `os.path.basename` for the paths at hand: the part after the last
slash (the whole path when it has no slash). -/
def basename_chars (p : List Char) : List Char :=
  (p.reverse.takeWhile (fun c => c ≠ '/')).reverse

def basename (p : String) : String := String.mk (basename_chars p.data)

/-- The loop body of `create_bibfile_symlinks` (compiletex.py lines
149-153): for each bibliography file, compute the target path inside
the build directory and, when no file exists at the target, create the
symlink. The filesystem is the list of existing paths; the result is
the list of (source, target) symlinks created plus the new filesystem. -/
def symlink_loop (builddir : String) :
    List String → List String → List (String × String) × List String
  | [], fs => ([], fs)
  | bibfile :: rest, fs =>
    let target := builddir ++ "/" ++ basename bibfile
    if target ∈ fs then symlink_loop builddir rest fs
    else
      let p := symlink_loop builddir rest (target :: fs)
      ((bibfile, target) :: p.1, p.2)

/-- `create_bibfile_symlinks` (compiletex.py lines 147-153): run the
loop only when `self.builddir` is truthy and differs from the
document's directory. -/
def create_bibfile_symlinks (builddir path : String) (bibfiles : List String)
    (fs : List String) : List (String × String) × List String :=
  if builddir ≠ "" ∧ builddir ≠ path then symlink_loop builddir bibfiles fs
  else ([], fs)

/-- The option mapping `main` builds (compiletex.py lines 187-193). -/
structure Configs where
  latex : String
  bibtex : String
  maintex : Option String
  logger : String
  builddir : String
deriving DecidableEq

/-- The `configs` defaults of `main`: `maintex` starts unset (None). -/
def default_configs : Configs :=
  { latex := "PdfLatexCompiler", bibtex := "bibtex", maintex := none,
    logger := "Logger", builddir := "texbuild" }

/-- The recognized keys of the settings file. -/
def config_keys : List String := ["latex", "bibtex", "maintex", "logger", "builddir"]

/-- Python `str.split(sep)` for a one-character separator. -/
def split_on_char (c : Char) : List Char → List (List Char)
  | [] => [[]]
  | x :: rest =>
    let r := split_on_char c rest
    if x = c then [] :: r
    else (x :: r.headD []) :: r.tail

/-- Python whitespace, as stripped by `str.strip()`. -/
def is_space (c : Char) : Bool :=
  c = ' ' || c = '\t' || c = '\n' || c = '\r' || c = '\x0b' || c = '\x0c'

/-- Python `str.strip()`: drop leading and trailing whitespace. -/
def strip_chars (l : List Char) : List Char :=
  ((l.dropWhile is_space).reverse.dropWhile is_space).reverse

def strip (s : String) : String := String.mk (strip_chars s.data)

/-- `configs[key.strip()] = val.strip()` for a recognized key. -/
def set_config (c : Configs) (key val : String) : Configs :=
  if key = "latex" then { c with latex := val }
  else if key = "bibtex" then { c with bibtex := val }
  else if key = "maintex" then { c with maintex := some val }
  else if key = "logger" then { c with logger := val }
  else if key = "builddir" then { c with builddir := val }
  else c

/-- How `main` can fail before a pipeline exists: the
`RuntimeError("no tex file provided")` raised when reading the settings
file fails, and the `TypeError` raised by `os.path.abspath(None)` in
`Project.__init__` when `maintex` was never set. -/
inductive MainError
  | noTexFileProvided
  | maintexTypeError
deriving DecidableEq

/-- The settings-file loop of `main` (compiletex.py lines 197-202):
keep the lines whose part before the first `=` is a recognized key and,
for each, unpack `key, val = tuple(line.split('='))` — a line with more
than one `=` makes the unpacking raise, which the bare `except` turns
into `RuntimeError("no tex file provided")`. -/
def process_rc_lines : Configs → List String → Except MainError Configs
  | cfg, [] => Except.ok cfg
  | cfg, line :: rest =>
    let parts := split_on_char '=' line.data
    if String.mk (strip_chars (parts.headD [])) ∈ config_keys then
      match parts with
      | [k, v] =>
        process_rc_lines
          (set_config cfg (String.mk (strip_chars k)) (String.mk (strip_chars v))) rest
      | _ => Except.error MainError.noTexFileProvided
    else process_rc_lines cfg rest

/-- `main` up to the construction of the `Project` (compiletex.py lines
186-206): with fewer than two arguments, read `compiletexrc` (absent
file: the `open` raises and the bare `except` reraises a configuration
error); otherwise take `maintex` from `argv[1]`. -/
def main_configs (argc : Nat) (argv : List String) (rc_file : Option (List String)) :
    Except MainError Configs :=
  if argc < 2 then
    match rc_file with
    | none => Except.error MainError.noTexFileProvided
    | some lines => process_rc_lines default_configs lines
  else Except.ok { default_configs with maintex := argv.get? 1 }

/-- `main` (compiletex.py lines 186-208): resolve the configs, then
`Project(texoptions=configs).compile()`. `Project.__init__` evaluates
`os.path.abspath(texoptions['maintex'])`, which raises a `TypeError`
when `maintex` is still `None`; only with a main document present is
the pipeline generated. `has_bibtex` stands for the result of the
directory scan. -/
def run_main (argc : Nat) (argv : List String) (rc_file : Option (List String))
    (has_bibtex : Bool) : Except MainError (List StepKind) :=
  match main_configs argc argv rc_file with
  | Except.error e => Except.error e
  | Except.ok cfg =>
    match cfg.maintex with
    | none => Except.error MainError.maintexTypeError
    | some _ => Except.ok (generate_compilation cfg.builddir has_bibtex)

example : deal_timeout none = [ProcAction.terminate] := by decide
example : deal_timeout (some 1) = [ProcAction.terminate, ProcAction.kill] := by decide
example : reference_auxiliary_filename "paper.tex".data = "paper.aux".data := by decide
example : reference_auxiliary_filename "a.md".data = "aaux".data := by decide
example : replace_extension_with_aux "a.md".data = "a.aux".data := by decide
example : basename "/d/x.bib" = "x.bib" := by decide
example : strip "  logger " = "logger" := by decide
example : (split_on_char '=' "logger = Logger".data).length = 2 := by decide
example :
    process_rc_lines default_configs ["logger = Logger"] =
      Except.ok { default_configs with logger := "Logger" } := by decide
example :
    deal_return_code ["cmd"] (ReturnCodes.mk [0] [0]) 0 "o" "e" ≠ Except.ok none := by
  decide

/-- C1: on timeout the code always sends terminate first, but the kill
guard `if process.poll():` fires exactly when the process has already
exited with a nonzero status: a process still alive after the
terminate (`poll()` returning `None`) is never killed, while a process
that already exited with status 1 gets the forced kill after its exit. -/
theorem deal_timeout_kill_guard :
    deal_timeout none = [ProcAction.terminate] ∧
    deal_timeout (some 1) = [ProcAction.terminate, ProcAction.kill] ∧
    deal_timeout (some 0) = [ProcAction.terminate] := by decide

/-- C3: the classification raises the failure carrying the formatted
message (full command, return code, stdout, stderr) exactly when the
exit code is in neither the ok list nor the warn list; an unknown code
is never an implicit success. -/
theorem deal_return_code_fail_iff :
    ∀ (command : List String) (rc : ReturnCodes) (c : Int) (out err : String),
      deal_return_code command rc c out err =
          Except.error (format_message command c out err) ↔
        c ∉ rc.ok ∧ c ∉ rc.warn := by
  intro command rc c out err
  unfold deal_return_code
  by_cases h : c ∉ rc.ok ∧ c ∉ rc.warn
  · rw [if_pos h]
    simp [h]
  · rw [if_neg h]
    constructor
    · intro hcontra
      exfalso
      split at hcontra <;> exact Except.noConfusion hcontra
    · intro hc
      exact absurd hc h

/-- C9 counterexample: with the overlapping policy ok = warn = [0],
exit code 0 is in the ok list, yet the unit logs the warning message
rather than logging nothing. -/
theorem deal_return_code_ok_but_logged :
    (0 : Int) ∈ (ReturnCodes.mk [0] [0]).ok ∧
    deal_return_code ["cmd"] (ReturnCodes.mk [0] [0]) 0 "o" "e" ≠ Except.ok none := by
  decide

/-- C9 (amended): an exit code in the ok list always succeeds, and
nothing is logged provided the code is not also in the warn list; an
exit code in the warn list succeeds and logs the formatted message
carrying the full command, return code and outputs. -/
theorem deal_return_code_classification :
    ∀ (command : List String) (rc : ReturnCodes) (c : Int) (out err : String),
      (c ∈ rc.ok → ∃ r, deal_return_code command rc c out err = Except.ok r) ∧
      (c ∈ rc.ok → c ∉ rc.warn →
        deal_return_code command rc c out err = Except.ok none) ∧
      (c ∈ rc.warn →
        deal_return_code command rc c out err =
          Except.ok (some (format_message command c out err))) := by
  intro command rc c out err
  refine ⟨?_, ?_, ?_⟩
  · intro hok
    unfold deal_return_code
    rw [if_neg (fun hcontra => hcontra.1 hok)]
    by_cases hw : c ∈ rc.warn
    · exact ⟨_, by rw [if_pos hw]⟩
    · exact ⟨_, by rw [if_neg hw]⟩
  · intro hok hw
    unfold deal_return_code
    rw [if_neg (fun hcontra => hcontra.1 hok), if_neg hw]
  · intro hw
    unfold deal_return_code
    rw [if_neg (fun hcontra => hcontra.2 hw), if_pos hw]

/-- Witness for the amended C9 at the bibliography-style policy. -/
theorem deal_return_code_classification_witness :
    (∃ r, deal_return_code ["cmd"] (ReturnCodes.mk [0] [2]) 0 "" "" = Except.ok r) ∧
    deal_return_code ["cmd"] (ReturnCodes.mk [0] [2]) 0 "" "" = Except.ok none ∧
    deal_return_code ["cmd"] (ReturnCodes.mk [0] [2]) 2 "" "" =
      Except.ok (some (format_message ["cmd"] 2 "" "")) :=
  ⟨(deal_return_code_classification ["cmd"] (ReturnCodes.mk [0] [2]) 0 "" "").1
      (by decide),
   (deal_return_code_classification ["cmd"] (ReturnCodes.mk [0] [2]) 0 "" "").2.1
      (by decide) (by decide),
   (deal_return_code_classification ["cmd"] (ReturnCodes.mk [0] [2]) 2 "" "").2.2
      (by decide)⟩

/-- C2: the pipeline invokes the added steps in exact insertion order:
when every step succeeds, all of them run in order; a failing step
propagates its failure at once and no later step is ever invoked. -/
theorem compile_insertion_order :
    (∀ steps : List Step, (∀ s ∈ steps, s.result = Except.ok ()) →
      compileTrace steps = (steps.map Step.id, Except.ok ())) ∧
    (∀ (front : List Step) (f : Step) (back : List Step) (e : String),
      (∀ s ∈ front, s.result = Except.ok ()) → f.result = Except.error e →
      compileTrace (front ++ f :: back) =
        (front.map Step.id ++ [f.id], Except.error e)) := by
  constructor
  · intro steps hall
    induction steps with
    | nil => rfl
    | cons s rest ih =>
      have hs : s.result = Except.ok () := hall s (List.mem_cons_self s rest)
      have hrest := ih (fun x hx => hall x (List.mem_cons_of_mem s hx))
      simp [compileTrace, hs, hrest]
  · intro front f back e hfront hf
    induction front with
    | nil => simp [compileTrace, hf]
    | cons s rest ih =>
      have hs : s.result = Except.ok () := hfront s (List.mem_cons_self s rest)
      have hrest := ih (fun x hx => hfront x (List.mem_cons_of_mem s hx))
      simp [compileTrace, hs, hrest]

/-- Witness for C2: an all-successful pipeline and a pipeline failing
at its second step. -/
theorem compile_insertion_order_witness :
    compileTrace [⟨0, Except.ok ()⟩, ⟨1, Except.ok ()⟩] = ([0, 1], Except.ok ()) ∧
    compileTrace [⟨0, Except.ok ()⟩, ⟨1, Except.error "boom"⟩, ⟨2, Except.ok ()⟩] =
      ([0, 1], Except.error "boom") :=
  ⟨compile_insertion_order.1 [⟨0, Except.ok ()⟩, ⟨1, Except.ok ()⟩] (by simp),
   compile_insertion_order.2 [⟨0, Except.ok ()⟩] ⟨1, Except.error "boom"⟩
     [⟨2, Except.ok ()⟩] "boom" (by simp) rfl⟩

/-- C10: in every unit invocation the pre-hook event precedes the
process spawn, and when the exit-code classification fails the failure
propagates before the post-hook: a failing unit never runs its
post-hook. -/
theorem unit_call_hook_order :
    ∀ (command : List String) (rc : ReturnCodes) (c : Int) (out err : String),
      (unit_call command rc c out err).1.take 2 = [Event.pre, Event.spawn] ∧
      ((∃ e, (unit_call command rc c out err).2 = Except.error e) →
        Event.post ∉ (unit_call command rc c out err).1) := by
  intro command rc c out err
  cases hd : deal_return_code command rc c out err with
  | error e =>
    refine ⟨?_, ?_⟩ <;> simp [unit_call, hd]
  | ok v =>
    refine ⟨?_, ?_⟩
    · simp [unit_call, hd]
    · rintro ⟨e2, he⟩
      simp [unit_call, hd] at he

/-- Witness for C10: a unit whose exit code 1 falls outside the default
policy never reaches its post-hook. -/
theorem unit_call_hook_order_witness :
    (unit_call ["latex", "m.tex"] (ReturnCodes.mk [0] []) 1 "" "").1.take 2 =
        [Event.pre, Event.spawn] ∧
    Event.post ∉ (unit_call ["latex", "m.tex"] (ReturnCodes.mk [0] []) 1 "" "").1 :=
  ⟨(unit_call_hook_order ["latex", "m.tex"] (ReturnCodes.mk [0] []) 1 "" "").1,
   (unit_call_hook_order ["latex", "m.tex"] (ReturnCodes.mk [0] []) 1 "" "").2
     ⟨format_message ["latex", "m.tex"] 1 "" "", by decide⟩⟩

/-- C5: the bibliography unit is built with the policy ok = [0],
warn = [2]; exit code 2 succeeds with the warning logged and the
pipeline goes on to the remaining steps, while exit code 1 raises the
failure and the remaining steps are never invoked. -/
theorem bib_return_code_policy :
    ∀ (command : List String) (out err : String) (rest : List Step) (i : Nat),
      bib_return_codes = ReturnCodes.mk [0] [2] ∧
      deal_return_code command bib_return_codes 2 out err =
        Except.ok (some (format_message command 2 out err)) ∧
      compileTrace (unit_step i command bib_return_codes 2 out err :: rest) =
        (i :: (compileTrace rest).1, (compileTrace rest).2) ∧
      deal_return_code command bib_return_codes 1 out err =
        Except.error (format_message command 1 out err) ∧
      compileTrace (unit_step i command bib_return_codes 1 out err :: rest) =
        ([i], Except.error (format_message command 1 out err)) := by
  intro command out err rest i
  have h2 : deal_return_code command bib_return_codes 2 out err =
      Except.ok (some (format_message command 2 out err)) := by
    unfold deal_return_code
    rw [if_neg (by decide), if_pos (by decide)]
  have h1 : deal_return_code command bib_return_codes 1 out err =
      Except.error (format_message command 1 out err) := by
    unfold deal_return_code
    rw [if_pos (by decide)]
  refine ⟨rfl, h2, ?_, h1, ?_⟩
  · simp [compileTrace, unit_step, unit_call, h2, Except.map]
  · simp [compileTrace, unit_step, unit_call, h1, Except.map]

/-- C4: with no bibliography files the plan is the (always-included
when the build directory is nonempty) directory step followed by one
main compile — exactly one compile unit; with bibliography files and a
build directory the plan is [mkBuildDir, compile, symlinks, bib,
compile, compile] — exactly three compile units and one bibliography
unit, in that order. -/
theorem generate_compilation_plans :
    ∀ builddir : String,
      (generate_compilation builddir false =
        (if builddir ≠ "" then [StepKind.mkBuildDir] else []) ++
          [StepKind.compileMain]) ∧
      ((generate_compilation builddir false).count StepKind.compileMain = 1) ∧
      (builddir ≠ "" →
        generate_compilation builddir true =
          [StepKind.mkBuildDir, StepKind.compileMain, StepKind.symlinks,
            StepKind.bib, StepKind.compileMain, StepKind.compileMain] ∧
        (generate_compilation builddir true).count StepKind.compileMain = 3 ∧
        (generate_compilation builddir true).count StepKind.bib = 1) := by
  intro builddir
  by_cases hb : builddir = ""
  · subst hb
    exact ⟨by decide, by decide, fun h => absurd rfl h⟩
  · refine ⟨?_, ?_, fun h => ⟨?_, ?_, ?_⟩⟩ <;>
      simp [generate_compilation, reference_units_kinds, hb]

/-- Witness for C4 at a concrete nonempty build directory. -/
theorem generate_compilation_plans_witness :
    generate_compilation "texbuild" true =
      [StepKind.mkBuildDir, StepKind.compileMain, StepKind.symlinks,
        StepKind.bib, StepKind.compileMain, StepKind.compileMain] ∧
    (generate_compilation "texbuild" true).count StepKind.compileMain = 3 :=
  ⟨((generate_compilation_plans "texbuild").2.2 (by decide)).1,
   ((generate_compilation_plans "texbuild").2.2 (by decide)).2.1⟩

/-- C6 counterexample: for the main filename a.md the code derives
aaux, while replacing the extension with aux would give a.aux. -/
theorem aux_filename_not_extension_replacement :
    reference_auxiliary_filename ['a', '.', 'm', 'd'] ≠
      replace_extension_with_aux ['a', '.', 'm', 'd'] := by decide

/-- Dropping a whole prefix whose elements all satisfy the predicate. -/
theorem dropWhile_append_all {α : Type} (p : α → Bool) (l₁ l₂ : List α)
    (h : ∀ x ∈ l₁, p x = true) :
    List.dropWhile p (l₁ ++ l₂) = List.dropWhile p l₂ := by
  induction l₁ with
  | nil => rfl
  | cons a t ih =>
    have ha := h a (List.mem_cons_self a t)
    rw [List.cons_append, List.dropWhile_cons_of_pos ha]
    exact ih (fun x hx => h x (List.mem_cons_of_mem a hx))

/-- C6 (amended): the code derives the auxiliary filename by dropping
the last three characters and appending aux; for a filename whose
extension has exactly three characters (base, a dot, then a dotless
three-character extension) this coincides with replacing the extension
with aux while keeping the base name — in particular paper.tex gives
paper.aux. -/
theorem aux_filename_three_char_ext :
    ∀ (b e : List Char), e.length = 3 → '.' ∉ e →
      reference_auxiliary_filename (b ++ '.' :: e) = b ++ ['.', 'a', 'u', 'x'] ∧
      reference_auxiliary_filename (b ++ '.' :: e) =
        replace_extension_with_aux (b ++ '.' :: e) := by
  intro b e hlen hdot
  have hsplit : b ++ '.' :: e = (b ++ ['.']) ++ e := by simp
  have htake : reference_auxiliary_filename (b ++ '.' :: e) =
      b ++ ['.', 'a', 'u', 'x'] := by
    unfold reference_auxiliary_filename
    rw [hsplit]
    have hlen2 : ((b ++ ['.']) ++ e).length - 3 = (b ++ ['.']).length := by
      simp [hlen]
    rw [hlen2, List.take_left]
    simp
  refine ⟨htake, ?_⟩
  rw [htake]
  unfold replace_extension_with_aux drop_extension
  rw [if_pos (by simp)]
  have hrev : (b ++ '.' :: e).reverse = e.reverse ++ '.' :: b.reverse := by
    simp
  rw [hrev]
  rw [dropWhile_append_all _ e.reverse ('.' :: b.reverse)
    (fun x hx => by
      have hxe : x ∈ e := List.mem_reverse.mp hx
      have hxd : x ≠ '.' := fun hc => hdot (hc ▸ hxe)
      simp [hxd])]
  rw [List.dropWhile_cons_of_neg (by simp)]
  simp

/-- Witness for the amended C6 at paper.tex. -/
theorem aux_filename_three_char_ext_witness :
    reference_auxiliary_filename
        ['p', 'a', 'p', 'e', 'r', '.', 't', 'e', 'x'] =
      ['p', 'a', 'p', 'e', 'r', '.', 'a', 'u', 'x'] :=
  (aux_filename_three_char_ext ['p', 'a', 'p', 'e', 'r'] ['t', 'e', 'x']
    (by decide) (by decide)).1

/-- C7: when the command line carries no document argument and the
settings file yields no main document path, main produces an error and
never a generated pipeline: no step list exists, so no step executes. -/
theorem no_maintex_fails_before_pipeline :
    ∀ (argc : Nat) (argv : List String) (rc_file : Option (List String))
      (has_bibtex : Bool),
      argc < 2 →
      (∀ cfg, main_configs argc argv rc_file = Except.ok cfg → cfg.maintex = none) →
      ∃ e, run_main argc argv rc_file has_bibtex = Except.error e := by
  intro argc argv rc_file hb hlt hnone
  unfold run_main
  cases hm : main_configs argc argv rc_file with
  | error e => exact ⟨e, rfl⟩
  | ok cfg =>
    have h1 := hnone cfg hm
    cases hcm : cfg.maintex with
    | none => exact ⟨MainError.maintexTypeError, by simp [hcm]⟩
    | some v =>
      rw [hcm] at h1
      exact Option.noConfusion h1

/-- Witness for C7: no argument given and a settings file that sets
only the logger. -/
theorem no_maintex_fails_before_pipeline_witness :
    ∃ e, run_main 1 ["compiletex"] (some ["logger = Logger"]) false =
      Except.error e :=
  no_maintex_fails_before_pipeline 1 ["compiletex"] (some ["logger = Logger"])
    false (by decide)
    (fun cfg h => by
      have h0 : main_configs 1 ["compiletex"] (some ["logger = Logger"]) =
          Except.ok { default_configs with logger := "Logger" } := by decide
      rw [h0] at h
      injection h with h1
      rw [← h1]
      rfl)

/-- No target created by the symlink loop was present when it started. -/
theorem symlink_loop_no_overwrite (builddir : String) :
    ∀ (bibfiles fs : List String),
      ∀ q ∈ (symlink_loop builddir bibfiles fs).1, q.2 ∉ fs := by
  intro bibfiles
  induction bibfiles with
  | nil =>
    intro fs q hq
    simp [symlink_loop] at hq
  | cons bf rest ih =>
    intro fs q hq
    simp only [symlink_loop] at hq
    by_cases ht : (builddir ++ "/" ++ basename bf) ∈ fs
    · rw [if_pos ht] at hq
      exact ih fs q hq
    · rw [if_neg ht] at hq
      rcases List.mem_cons.mp hq with hqe | hqm
      · rw [hqe]
        exact ht
      · have := ih ((builddir ++ "/" ++ basename bf) :: fs) q hqm
        exact fun hf => this (List.mem_cons_of_mem _ hf)

/-- C8: the symlink step performs no creation at all when the build
directory equals the document directory (the filesystem is returned
unchanged, with no created links), and no created symlink has a target
that already existed on the filesystem. -/
theorem symlinks_never_overwrite :
    (∀ (builddir : String) (bibfiles fs : List String),
      create_bibfile_symlinks builddir builddir bibfiles fs = ([], fs)) ∧
    (∀ (builddir docdir : String) (bibfiles fs : List String),
      ∀ q ∈ (create_bibfile_symlinks builddir docdir bibfiles fs).1, q.2 ∉ fs) := by
  constructor
  · intro builddir bibfiles fs
    unfold create_bibfile_symlinks
    rw [if_neg (fun hc => hc.2 rfl)]
  · intro builddir docdir bibfiles fs q hq
    unfold create_bibfile_symlinks at hq
    split at hq
    · exact symlink_loop_no_overwrite builddir bibfiles fs q hq
    · simp at hq

/-- Witness for C8: same-directory configuration creates nothing, and
the one link created in a fresh build directory did not exist before. -/
theorem symlinks_never_overwrite_witness :
    create_bibfile_symlinks "/b" "/b" ["/d/x.bib"] ["/b/x.bib"] =
      ([], ["/b/x.bib"]) ∧
    "/b/x.bib" ∉ ["/d/other.bib"] :=
  ⟨symlinks_never_overwrite.1 "/b" ["/d/x.bib"] ["/b/x.bib"],
   symlinks_never_overwrite.2 "/b" "/d" ["/d/x.bib"] ["/d/other.bib"]
     ("/d/x.bib", "/b/x.bib") (by decide)⟩
